import Mathlib

set_option maxRecDepth 8000

/-!
Shallow embedding of the validation and reconciliation layer of the
game-deal CRUD backend (src/app.js) and proofs about it.

Conventions of the embedding:
* JSON request bodies are produced by the express.json middleware, i.e.
  by JSON.parse, so the values reaching the validators contain no
  undefined, no NaN and no infinite numbers; an absent field read through
  destructuring or property access yields undefined, which the model
  represents explicitly.
* JS numbers are modelled as exact rationals; no claim in scope depends
  on floating-point rounding or overflow.
* Thrown Error objects are modelled by an error enumeration with one
  constructor per throw site; the exact thrown message is recorded in the
  constructor's comment.
-/

/-- JSON-representable primitive value, as produced by JSON.parse for a
scalar field (JSON has no undefined, no NaN, no infinities). -/
inductive JPrim where
  | null
  | bool (b : Bool)
  | str (s : String)
  | num (q : Rat)
deriving DecidableEq, Repr

/-- Result of a JS property access or of destructuring: undefined when the
field is absent, otherwise the JSON primitive stored there. -/
inductive Prim where
  | undefined
  | val (v : JPrim)
deriving DecidableEq, Repr

/-- JS truthiness of a JSON primitive. -/
def truthyJP : JPrim → Bool
  | .null => false
  | .bool b => b
  | .str s => !(s == "")
  | .num q => !(q == 0)

/-- JS truthiness of a possibly-undefined value. -/
def truthy : Prim → Bool
  | .undefined => false
  | .val v => truthyJP v

/-- Serialization of a field value by the MongoDB driver with the default
option ignoreUndefined=false: undefined is serialized as null (BSON has no
undefined), every other value is kept as is.  Applied to inserted
documents, to $set payloads and to query values. -/
def toBson : Prim → JPrim
  | .undefined => .null
  | .val v => v

/-- Outcome of converting a JS string to a number: NaN, a signed infinity
or a finite value. -/
inductive JNum where
  | nan
  | inf (pos : Bool)
  | fin (q : Rat)
deriving DecidableEq, Repr

/-- Negation of the isNaN test. -/
def JNum.isNotNaN : JNum → Bool
  | .nan => false
  | _ => true

/-- The isFinite test. -/
def JNum.isFinite : JNum → Bool
  | .fin _ => true
  | _ => false

/-- Whitespace characters skipped by parseFloat and trimmed by ToNumber. -/
def isJsWs (c : Char) : Bool :=
  c == ' ' || c == '\t' || c == '\n' || c == '\r' || c == '\x0b' || c == '\x0c'

/-- Value of a list of decimal digits. -/
def digitsToNat (ds : List Char) : Nat :=
  ds.foldl (fun n c => 10 * n + (c.toNat - 48)) 0

/-- Longest prefix of decimal digits, with the unconsumed rest. -/
def spanDigits : List Char → List Char × List Char
  | [] => ([], [])
  | c :: cs =>
    if c.isDigit then
      let p := spanDigits cs
      (c :: p.1, p.2)
    else ([], c :: cs)

/-- Exponent digits after the e/E marker: optional sign and then at least
one digit; none when the digits are missing. -/
def parseExpTail (cs : List Char) : Option (Int × List Char) :=
  match cs with
  | '+' :: rest =>
    match spanDigits rest with
    | ([], _) => none
    | (ds, r) => some ((digitsToNat ds : Int), r)
  | '-' :: rest =>
    match spanDigits rest with
    | ([], _) => none
    | (ds, r) => some (-(digitsToNat ds : Int), r)
  | _ =>
    match spanDigits cs with
    | ([], _) => none
    | (ds, r) => some ((digitsToNat ds : Int), r)

/-- Optional exponent part of a decimal literal; the e/E is consumed only
when exponent digits follow it. -/
def parseExp (cs : List Char) : Option (Int × List Char) :=
  match cs with
  | c :: rest => if c == 'e' || c == 'E' then parseExpTail rest else none
  | [] => none

/-- Value of an unsigned decimal literal: integer digits, fractional
digits and a decimal exponent; the significand digits are read as an
integer and the exponent is shifted down by the number of fractional
digits. -/
def decValue (ip fp : List Char) (e : Int) : Rat :=
  match e - (fp.length : Int) with
  | .ofNat k => mkRat (digitsToNat (ip ++ fp) * 10 ^ k) 1
  | .negSucc k => mkRat (digitsToNat (ip ++ fp)) (10 ^ (k + 1))

/-- Longest leading unsigned decimal literal (digits, optional point with
fractional digits, optional exponent); none when no significand digit is
present.  Returns the value and the unconsumed rest. -/
def parseDecimal (cs : List Char) : Option (Rat × List Char) :=
  let ip := (spanDigits cs).1
  let r1 := (spanDigits cs).2
  match r1 with
  | '.' :: rest =>
    let fp := (spanDigits rest).1
    let r2 := (spanDigits rest).2
    if ip = [] ∧ fp = [] then none
    else
      match parseExp r2 with
      | some (e, r3) => some (decValue ip fp e, r3)
      | none => some (decValue ip fp 0, r2)
  | _ =>
    if ip = [] then none
    else
      match parseExp r1 with
      | some (e, r3) => some (decValue ip [] e, r3)
      | none => some (decValue ip [] 0, r1)

/-- Embedding of parseFloat on a string: skip leading whitespace, optional
sign, then either an Infinity literal or the longest leading decimal
literal; NaN when nothing numeric can be consumed (trailing garbage is
ignored, and hex prefixes are not understood, so parseFloat of a 0x
literal reads the leading 0). -/
def jsParseFloat (s : String) : JNum :=
  let cs := s.toList.dropWhile isJsWs
  let neg : Bool := match cs with | '-' :: _ => true | _ => false
  let cs2 : List Char :=
    match cs with
    | '+' :: rest => rest
    | '-' :: rest => rest
    | _ => cs
  if cs2.take 8 = "Infinity".toList then JNum.inf (!neg)
  else
    match parseDecimal cs2 with
    | some (q, _) => JNum.fin (if neg then -q else q)
    | none => JNum.nan

/-- Trim JS whitespace from both ends. -/
def trimJsWs (s : String) : List Char :=
  ((s.toList.dropWhile isJsWs).reverse.dropWhile isJsWs).reverse

/-- Value of a hexadecimal digit. -/
def hexVal (c : Char) : Option Nat :=
  if c.isDigit then some (c.toNat - 48)
  else if 'a' ≤ c ∧ c ≤ 'f' then some (c.toNat - 87)
  else if 'A' ≤ c ∧ c ≤ 'F' then some (c.toNat - 55)
  else none

/-- Value of a binary digit. -/
def binVal (c : Char) : Option Nat :=
  if c == '0' then some 0 else if c == '1' then some 1 else none

/-- Value of an octal digit. -/
def octVal (c : Char) : Option Nat :=
  if c.isDigit && c ≤ '7' then some (c.toNat - 48) else none

/-- Value of a non-empty digit string in the given radix; none when empty
or when a character is not a digit of that radix. -/
def radixVal (radix : Nat) (valOf : Char → Option Nat) (cs : List Char) : Option Nat :=
  if cs = [] then none
  else
    cs.foldl
      (fun acc c =>
        match acc with
        | some n =>
          match valOf c with
          | some d => some (radix * n + d)
          | none => none
        | none => none)
      (some 0)

/-- Signed decimal part of ToNumber: the whole remaining input must be a
decimal literal with an optional sign. -/
def jsDecNumber (t : List Char) : JNum :=
  let neg : Bool := match t with | '-' :: _ => true | _ => false
  let t2 : List Char :=
    match t with
    | '+' :: rest => rest
    | '-' :: rest => rest
    | _ => t
  match parseDecimal t2 with
  | some (q, []) => JNum.fin (if neg then -q else q)
  | _ => JNum.nan

/-- Embedding of ToNumber on a string (the coercion performed by
isFinite): a trimmed empty string is 0; Infinity literals; unsigned
0x/0o/0b integer literals; otherwise a fully consumed signed decimal
literal; everything else is NaN. -/
def jsToNumber (s : String) : JNum :=
  let t := trimJsWs s
  if t = [] then JNum.fin 0
  else if t = "Infinity".toList ∨ t = "+Infinity".toList then JNum.inf true
  else if t = "-Infinity".toList then JNum.inf false
  else
    match t with
    | '0' :: c :: rest =>
      if c == 'x' || c == 'X' then
        match radixVal 16 hexVal rest with
        | some n => JNum.fin (mkRat n 1)
        | none => JNum.nan
      else if c == 'o' || c == 'O' then
        match radixVal 8 octVal rest with
        | some n => JNum.fin (mkRat n 1)
        | none => JNum.nan
      else if c == 'b' || c == 'B' then
        match radixVal 2 binVal rest with
        | some n => JNum.fin (mkRat n 1)
        | none => JNum.nan
      else jsDecNumber t
    | _ => jsDecNumber t

/-- Embedding of isNumerical(value) = !isNaN(parseFloat(value)) &&
isFinite(value) from src/app.js.  parseFloat converts its argument to a
string first (String(null) is "null", String(true) is "true", ..., all of
which it rejects), and a finite number converts to a string that parses
back to itself; isFinite applies ToNumber, under which a finite number is
finite while null and booleans are finite but never reach that conjunct
with a true left side. -/
def isNumerical : Prim → Bool
  | .undefined => false
  | .val .null => false
  | .val (.bool _) => false
  | .val (.num _) => true
  | .val (.str s) => (jsParseFloat s).isNotNaN && (jsToNumber s).isFinite

/-- A JS object from a JSON body, as an association list of fields in
insertion order.  JS objects have unique keys (JSON.parse keeps the last
binding of a repeated key), so the key lists of objects that model real
inputs are duplicate-free; field order is observable through
JSON.stringify and BSON and is therefore kept. -/
abbrev DealObj := List (String × JPrim)

/-- Property access d[k]: the first binding of k, or undefined. -/
def getField : DealObj → String → Prim
  | [], _ => .undefined
  | (k2, v) :: rest, k => if k2 = k then .val v else getField rest k

/-- Embedding of isDealValid from src/app.js: storeID and price must be
strictly different from null and from the empty string (strict comparison,
so an absent field, being undefined, passes both checks). -/
def isDealValid (d : DealObj) : Bool :=
  getField d "storeID" != Prim.val .null && getField d "storeID" != Prim.val (.str "") &&
  getField d "price" != Prim.val .null && getField d "price" != Prim.val (.str "")

/-- Error taxonomy of the app, one constructor per throw site or failure
report in src/app.js:
* emptyInput: "Deals array cannot be empty."
* invalidDeal: "Each deal must have a non-null storeID and price."
* nonNumericPrice v: "Price must be a numerical value. Invalid value: v"
* duplicateStoreID: "Duplicate storeID found."
* nonNumericCheapestPrice v: "CheapestPrice must be a numerical value. ..."
* missingRequiredAttributes l: "Missing or empty required attributes: l"
* duplicateGame: "A game with the same gameID or title already exists."
* notFound: "Game not found."
* noChange: "No changes detected. Provide at least one unique update."
* notFoundOrNoChange: "Game not found or no changes made." -/
inductive AppError where
  | emptyInput
  | invalidDeal
  | nonNumericPrice (v : Prim)
  | duplicateStoreID
  | nonNumericCheapestPrice (v : Prim)
  | missingRequiredAttributes (attrs : List String)
  | duplicateGame
  | notFound
  | noChange
  | notFoundOrNoChange
deriving DecidableEq, Repr

deriving instance DecidableEq for Except

/-- Embedding of validateDealAttributes from src/app.js: deals.forEach with
throws, so the first offending deal in order determines the error, and for
one deal the isDealValid check precedes the numeric check. -/
def validateDealAttributes : List DealObj → Except AppError Unit
  | [] => .ok ()
  | d :: ds =>
    if !(isDealValid d) then .error .invalidDeal
    else if !(isNumerical (getField d "price")) then
      .error (.nonNumericPrice (getField d "price"))
    else validateDealAttributes ds

/-- Loop of hasUniqueStoreIDs: seen is the content of the storeIDSet.
Set membership uses SameValueZero equality, which on the values of this
model (no NaN, no signed zero) is structural equality. -/
def hasUniqueAux (seen : List Prim) : List DealObj → Bool
  | [] => true
  | d :: ds =>
    if getField d "storeID" ∈ seen then false
    else hasUniqueAux (getField d "storeID" :: seen) ds

/-- Embedding of hasUniqueStoreIDs from src/app.js. -/
def hasUniqueStoreIDs (ds : List DealObj) : Bool := hasUniqueAux [] ds

/-- Shape of the entries of the sequence returned by validateDeals:
exactly a storeID and a price. -/
structure NormDeal where
  storeID : Prim
  price : Prim
deriving DecidableEq, Repr

/-- The map at the end of validateDeals: deal => ({storeID: deal.storeID,
price: deal.price}). -/
def normalizeDeal (d : DealObj) : NormDeal :=
  ⟨getField d "storeID", getField d "price"⟩

/-- The value found under the deals key of a JSON body: only an array
passes the Array.isArray check.  Array elements are modelled as objects;
every claim in scope concerns object entries. -/
inductive DealsVal where
  | prim (p : Prim)
  | arr (ds : List DealObj)
deriving DecidableEq, Repr

/-- Embedding of validateDeals from src/app.js: emptiness check, then
validateDealAttributes, then the uniqueness check, then the normalizing
map. -/
def validateDeals : DealsVal → Except AppError (List NormDeal)
  | .prim _ => .error .emptyInput
  | .arr ds =>
    if ds.length = 0 then .error .emptyInput
    else
      match validateDealAttributes ds with
      | .error e => .error e
      | .ok _ =>
        if hasUniqueStoreIDs ds then .ok (ds.map normalizeDeal)
        else .error .duplicateStoreID

/-- The five fields the routes destructure from a JSON request body; an
absent field is undefined. -/
structure GamePayload where
  gameID : Prim
  title : Prim
  thumb : Prim
  cheapestPrice : Prim
  deals : DealsVal
deriving DecidableEq, Repr

/-- JS truthiness of the deals value: every array, the empty one
included, is truthy. -/
def truthyDeals : DealsVal → Bool
  | .prim p => truthy p
  | .arr _ => true

/-- The requiredAttributes list of validateGameAttributes. -/
def requiredAttributes : List String := ["title", "cheapestPrice", "deals"]

/-- Embedding of isAttributeInvalid from src/app.js: for each of the three
required attributes, !game[attr] || game[attr] === null ||
game[attr] === ''; anything else is valid. -/
def isAttributeInvalid (g : GamePayload) (attr : String) : Bool :=
  if attr = "title" then
    !(truthy g.title) || g.title == Prim.val .null || g.title == Prim.val (.str "")
  else if attr = "cheapestPrice" then
    !(truthy g.cheapestPrice) || g.cheapestPrice == Prim.val .null ||
      g.cheapestPrice == Prim.val (.str "")
  else if attr = "deals" then
    !(truthyDeals g.deals) || g.deals == DealsVal.prim (.val .null) ||
      g.deals == DealsVal.prim (.val (.str ""))
  else false

/-- Embedding of validateCheapestPrice from src/app.js. -/
def validateCheapestPrice (p : Prim) : Except AppError Unit :=
  if !(isNumerical p) then .error (.nonNumericCheapestPrice p) else .ok ()

/-- Embedding of validateGameAttributes from src/app.js: the invalid
attribute list is computed first, validateCheapestPrice may then throw,
and only afterwards is the missing-attribute error raised. -/
def validateGameAttributes (g : GamePayload) : Except AppError Unit :=
  match validateCheapestPrice g.cheapestPrice with
  | .error e => .error e
  | .ok _ =>
    if (requiredAttributes.filter (fun a => isAttributeInvalid g a)).length > 0 then
      .error (.missingRequiredAttributes
        (requiredAttributes.filter (fun a => isAttributeInvalid g a)))
    else .ok ()

/-- A stored document: the store-assigned _id and the five fields written
by the create route (field values are BSON-serialized, hence JPrim). -/
structure GameDoc where
  id : Nat
  gameID : JPrim
  title : JPrim
  thumb : JPrim
  cheapestPrice : JPrim
  deals : List DealObj
deriving DecidableEq, Repr

/-- Embedding of JSON.stringify(existingGame.deals) ===
JSON.stringify(newGameData.deals).  On the values of this model (JSON
trees without undefined, NaN or infinities) JSON.stringify is injective up
to object key order, and the association-list model keeps key order, so
stringify-equality of two arrays of objects is structural equality; a
non-array inbound deals value never stringifies like an array (a string
stringifies quoted, undefined stringifies to the undefined value, other
primitives to themselves). -/
def stringifyEqDeals (stored : List DealObj) : DealsVal → Bool
  | .arr ds => stored == ds
  | .prim _ => false

/-- Embedding of checkIfSameGame from src/app.js: strict equality on the
four scalar fields (the stored side carries BSON values, the inbound side
possibly undefined ones, and null === undefined is false) and
JSON.stringify equality on the deals arrays. -/
def checkIfSameGame (doc : GameDoc) (p : GamePayload) : Bool :=
  Prim.val doc.gameID == p.gameID &&
  Prim.val doc.title == p.title &&
  Prim.val doc.thumb == p.thumb &&
  Prim.val doc.cheapestPrice == p.cheapestPrice &&
  stringifyEqDeals doc.deals p.deals

/-- The payload that carries exactly the stored record's values: an
identical copy, deals in the same order. -/
def toPayload (doc : GameDoc) : GamePayload :=
  ⟨.val doc.gameID, .val doc.title, .val doc.thumb, .val doc.cheapestPrice, .arr doc.deals⟩

/-- The deals array under a deals value (meaningful once validateDeals
has accepted it). -/
def getArr : DealsVal → List DealObj
  | .arr ds => ds
  | .prim _ => []

/-- Predicate of the create route's duplicate query
{$or: [{gameID: {$ne: null, $eq: gameID}}, {title}]}: both operators of
the first branch apply to the stored gameID field, and the query value is
BSON-serialized (an undefined inbound gameID is serialized as null, so
the first branch then matches nothing). -/
def conflictWith (doc : GameDoc) (p : GamePayload) : Bool :=
  (doc.gameID != JPrim.null && doc.gameID == toBson p.gameID) || doc.title == toBson p.title

/-- The document inserted by the create route: the five destructured
fields, BSON-serialized; the deals array is stored as submitted, not the
sequence validateDeals returned. -/
def mkDoc (nid : Nat) (p : GamePayload) : GameDoc :=
  ⟨nid, toBson p.gameID, toBson p.title, toBson p.thumb, toBson p.cheapestPrice, getArr p.deals⟩

/-- Embedding of the POST /games handler: validateGameAttributes, then
validateDeals (result unused), then the duplicate query, then insertOne.
nid is the store-assigned _id of the record being inserted.  The first
component is the response: ok with the new id, or the thrown error caught
at the route boundary; the second is the collection afterwards. -/
def postGames (db : List GameDoc) (nid : Nat) (p : GamePayload) :
    Except AppError Nat × List GameDoc :=
  match validateGameAttributes p with
  | .error e => (.error e, db)
  | .ok _ =>
    match validateDeals p.deals with
    | .error e => (.error e, db)
    | .ok _ =>
      if db.any (fun doc => conflictWith doc p) then (.error .duplicateGame, db)
      else (.ok nid, db ++ [mkDoc nid p])

/-- Effect of updateOne's $set of the five destructured fields on a stored
document (values BSON-serialized, _id untouched). -/
def applySet (doc : GameDoc) (p : GamePayload) : GameDoc :=
  { doc with
      gameID := toBson p.gameID
      title := toBson p.title
      thumb := toBson p.thumb
      cheapestPrice := toBson p.cheapestPrice
      deals := getArr p.deals }

/-- Embedding of updateOne({_id: key}, {$set: ...}): rewrites the first
document with the given key. -/
def replaceFirst (db : List GameDoc) (key : Nat) (p : GamePayload) : List GameDoc :=
  match db with
  | [] => []
  | d :: rest => if d.id == key then applySet d p :: rest else d :: replaceFirst rest key p

/-- Embedding of the PUT /games/:id handler: validators, fetchExistingGame
("Game not found." when absent), checkIfSameGame ("No changes detected...")
and then updateGame; modifiedCount is 0 exactly when the $set leaves the
stored document unchanged, which raises "Game not found or no changes
made." after the write. -/
def putGames (db : List GameDoc) (key : Nat) (p : GamePayload) :
    Except AppError Unit × List GameDoc :=
  match validateGameAttributes p with
  | .error e => (.error e, db)
  | .ok _ =>
    match validateDeals p.deals with
    | .error e => (.error e, db)
    | .ok _ =>
      match db.find? (fun d => d.id == key) with
      | none => (.error .notFound, db)
      | some doc =>
        if checkIfSameGame doc p then (.error .noChange, db)
        else
          if applySet doc p == doc then (.error .notFoundOrNoChange, replaceFirst db key p)
          else (.ok (), replaceFirst db key p)

/-- Embedding of the DELETE /games handler: deleteMany({}) removes every
document and reports how many it deleted; the 500 branch is reached only
when the store itself fails (modelled by connectOk).  The first component
is the HTTP status, the second the reported deletedCount (none for the
error body), the third the collection afterwards. -/
def deleteAllGames (connectOk : Bool) (db : List GameDoc) :
    (Nat × Option Nat) × List GameDoc :=
  if connectOk then ((200, some db.length), []) else ((500, none), db)

/-- A JSON-like JS value tree, used for the payload the external pricing
API returns (axios parses the response body). -/
inductive JVal where
  | undefined
  | null
  | bool (b : Bool)
  | str (s : String)
  | num (q : Rat)
  | arr (elems : List JVal)
  | obj (fields : List (String × JVal))
deriving Repr

/-- Values on which property access throws a TypeError. -/
def isNullishJV : JVal → Bool
  | .null => true
  | .undefined => true
  | _ => false

/-- Property access v[k]: throws (error case) on null and undefined,
looks fields up on objects, and yields undefined on other receivers. -/
def jvGet : JVal → String → Except Unit JVal
  | .undefined, _ => .error ()
  | .null, _ => .error ()
  | .obj fields, k =>
    match fields.lookup k with
    | some v => .ok v
    | none => .ok .undefined
  | _, _ => .ok .undefined

/-- JS truthiness of a JS value (objects and arrays are always truthy). -/
def truthyJV : JVal → Bool
  | .undefined => false
  | .null => false
  | .bool b => b
  | .str s => !(s == "")
  | .num q => !(q == 0)
  | .arr _ => true
  | .obj _ => true

/-- Object.keys(v).length for the values that can reach the emptiness
check of fetchAndStoreGame: own enumerable keys (fields of objects, index
keys of arrays and strings, none for other primitives). -/
def jvKeyCount : JVal → Nat
  | .obj fields => fields.length
  | .arr elems => elems.length
  | .str s => s.length
  | _ => 0

/-- The filter callback deal.storeID != null && deal.price != null: loose
comparison with null also drops undefined; property access on a nullish
element throws, and the right conjunct is only evaluated when the left one
holds. -/
def keepDeal (e : JVal) : Except Unit Bool :=
  match jvGet e "storeID" with
  | .error _ => .error ()
  | .ok sid =>
    if isNullishJV sid then .ok false
    else
      match jvGet e "price" with
      | .error _ => .error ()
      | .ok pr => .ok (!(isNullishJV pr))

/-- gameData.deals.filter(...) over the element list. -/
def filterDeals : List JVal → Except Unit (List JVal)
  | [] => .ok []
  | e :: es =>
    match keepDeal e with
    | .error _ => .error ()
    | .ok b =>
      match filterDeals es with
      | .error _ => .error ()
      | .ok rest => .ok (if b then e :: rest else rest)

/-- The map callback deal => ({storeID: deal.storeID, price: deal.price}). -/
def mapDeal (e : JVal) : Except Unit (JVal × JVal) :=
  match jvGet e "storeID", jvGet e "price" with
  | .ok sid, .ok pr => .ok (sid, pr)
  | _, _ => .error ()

/-- .map over the kept elements. -/
def mapDeals : List JVal → Except Unit (List (JVal × JVal))
  | [] => .ok []
  | e :: es =>
    match mapDeal e, mapDeals es with
    | .ok d, .ok rest => .ok (d :: rest)
    | _, _ => .error ()

/-- The record shape fetchAndStoreGame builds from the API payload. -/
structure FetchedGame where
  gameID : JVal
  title : JVal
  thumb : JVal
  cheapestPrice : JVal
  deals : List (JVal × JVal)

/-- The reshaping step of fetchAndStoreGame: the member accesses of the
formattedGame object literal and the deals.filter(...).map(...) pipeline;
any TypeError (nullish access, or .filter on a non-array) is the error
case. -/
def formatGame (gameData : JVal) : Except Unit FetchedGame := do
  let info ← jvGet gameData "info"
  let gid ← jvGet info "gameID"
  let ttl ← jvGet info "title"
  let th ← jvGet info "thumb"
  let cpe ← jvGet gameData "cheapestPriceEver"
  let pr ← jvGet cpe "price"
  let dl ← jvGet gameData "deals"
  match dl with
  | .arr elems => do
    let kept ← filterDeals elems
    let ds ← mapDeals kept
    pure ⟨gid, ttl, th, pr, ds⟩
  | _ => .error ()

/-- Result object fetchAndStoreGame returns to its caller: either an
object with an error field ("Invalid API response" or "Failed to
fetch/store game data") or one with a message field ("Game already
exists" or "Game inserted successfully!" with the new id). -/
inductive FetchResult where
  | invalidApi
  | fetchStoreFailed
  | alreadyExists
  | inserted (id : Nat)
deriving DecidableEq, Repr

/-- Outcome oracles for the effectful steps of fetchAndStoreGame: whether
connectDB resolves, the axios response (error = rejected request or
network failure), whether findOne rejects, whether a record with the
fetched gameID already exists, whether insertOne rejects, and the
store-assigned id on insert. -/
structure FetchEnv where
  connectOk : Bool
  api : Except Unit JVal
  findFails : Bool
  existsByGameID : JVal → Bool
  insertFails : Bool
  insertId : Nat

/-- Body of the try block of fetchAndStoreGame; the error case is an
exception escaping the block. -/
def fetchBody (env : FetchEnv) : Except Unit FetchResult := do
  let gameData ← env.api
  if truthyJV gameData = false ∨ jvKeyCount gameData = 0 then
    pure .invalidApi
  else do
    let fg ← formatGame gameData
    if env.findFails then .error ()
    else if env.existsByGameID fg.gameID then pure .alreadyExists
    else if env.insertFails then .error ()
    else pure (.inserted env.insertId)

/-- The catch clause: every exception from the try block is downgraded to
the {error: "Failed to fetch/store game data"} result object. -/
def catchAll : Except Unit FetchResult → Except Unit FetchResult
  | .error _ => .ok .fetchStoreFailed
  | .ok r => .ok r

/-- Embedding of fetchAndStoreGame from src/app.js: connectDB is awaited
before the try block, so its rejection propagates to the caller;
everything inside the try block is caught. -/
def fetchAndStoreGame (env : FetchEnv) : Except Unit FetchResult :=
  if env.connectOk then catchAll (fetchBody env) else .error ()

/-- Embedding of the POST /fetch-store route: it awaits fetchAndStoreGame
and serializes the result, with no try/catch of its own, so an exception
from fetchAndStoreGame propagates past the handler. -/
def postFetchStore (env : FetchEnv) : Except Unit FetchResult :=
  fetchAndStoreGame env

/-- Deal entry {storeID: "1", price: "9.99"} of the specification's
example. -/
def dealOne : DealObj := [("storeID", .str "1"), ("price", .str "9.99")]

/-- Deal entry {storeID: "2", price: "4.99"} of the specification's
example. -/
def dealTwo : DealObj := [("storeID", .str "2"), ("price", .str "4.99")]

/-- Deal entry with an extra field beyond storeID and price. -/
def dealExtra : DealObj :=
  [("storeID", .str "1"), ("price", .str "9.99"), ("isOnSale", .str "1")]

/-- Deal entry sharing dealOne's storeID but with a non-numeric price. -/
def dealBadPrice : DealObj := [("storeID", .str "1"), ("price", .str "abc")]

/-- Deal entry sharing dealOne's storeID with a numeric price. -/
def dealDupOne : DealObj := [("storeID", .str "1"), ("price", .str "3.99")]

/-- A stored record whose single deal entry carries an extra field. -/
def docExtra : GameDoc :=
  ⟨1, .str "g1", .str "Halo", .str "thumb.png", .str "9.99", [dealExtra]⟩

/-- A replacement payload for docExtra whose scalar fields coincide and
whose single deal entry is the {storeID, price} projection of the stored
one. -/
def payloadExtra : GamePayload :=
  ⟨.val (.str "g1"), .val (.str "Halo"), .val (.str "thumb.png"), .val (.str "9.99"),
    .arr [dealOne]⟩

/-- A stored record with two deal entries. -/
def docTwoDeals : GameDoc :=
  ⟨2, .str "g2", .str "Myst", .str "m.png", .str "4.99", [dealOne, dealTwo]⟩

/-- The same record as a payload with the two deals swapped. -/
def payloadReordered : GamePayload :=
  ⟨.val (.str "g2"), .val (.str "Myst"), .val (.str "m.png"), .val (.str "4.99"),
    .arr [dealTwo, dealOne]⟩

/-- A stored record whose cheapestPrice is the number 9.99. -/
def docNumPrice : GameDoc :=
  ⟨3, .str "g3", .str "Ico", .str "i.png", .num (mkRat 999 100), [dealOne]⟩

/-- The same record as a payload with cheapestPrice as the string "9.99". -/
def payloadStrPrice : GamePayload :=
  ⟨.val (.str "g3"), .val (.str "Ico"), .val (.str "i.png"), .val (.str "9.99"),
    .arr [dealOne]⟩

/-- Payload whose cheapestPrice is null: the claim calls it missing, the
code fails its numeric check first. -/
def payloadNullPrice : GamePayload :=
  ⟨.undefined, .val (.str "Halo"), .undefined, .val .null, .arr [dealOne]⟩

/-- Payload whose deals list is empty: falsy by the claim's reading, but
an empty array is truthy so the attribute validator accepts the payload. -/
def payloadEmptyDeals : GamePayload :=
  ⟨.undefined, .val (.str "Halo"), .undefined, .val (.num (5 : Rat)), .arr []⟩

/-- Payload with an empty title and a numeric cheapestPrice. -/
def payloadNoTitle : GamePayload :=
  ⟨.undefined, .val (.str ""), .undefined, .val (.num (3 : Rat)), .arr [dealOne]⟩

/-- A stored record whose gameID is null (created from a payload without a
gameID: BSON serializes the undefined as null). -/
def docNullGameID : GameDoc :=
  ⟨1, .null, .str "Halo", .str "thumb.png", .str "9.99", [dealOne]⟩

/-- A payload identical to docNullGameID except that its gameID is
undefined where the stored one is null: strict equality tells them apart,
BSON serialization does not. -/
def payloadUndefGameID : GamePayload :=
  ⟨.undefined, .val (.str "Halo"), .val (.str "thumb.png"), .val (.str "9.99"), .arr [dealOne]⟩

/-- A payload identical to docNullGameID except for its thumb. -/
def payloadNewThumb : GamePayload :=
  ⟨.val .null, .val (.str "Halo"), .val (.str "other.png"), .val (.str "9.99"),
    .arr [dealOne]⟩

/-- Create-route payload: null gameID, title Halo. -/
def payloadHalo : GamePayload :=
  ⟨.val .null, .val (.str "Halo"), .val (.str "thumb.png"), .val (.str "9.99"),
    .arr [dealOne]⟩

/-- Create-route payload: null gameID, same title Halo, different
everything else. -/
def payloadHaloAgain : GamePayload :=
  ⟨.val .null, .val (.str "Halo"), .val (.str "other.png"), .val (.str "4.99"),
    .arr [dealTwo]⟩

/-- Create-route payload whose deal entry carries an extra field. -/
def payloadWithExtra : GamePayload :=
  ⟨.val (.str "g9"), .val (.str "Okami"), .val (.str "o.png"), .val (.str "9.99"),
    .arr [dealExtra]⟩

/-- Environment in which the store connection itself fails. -/
def envConnectFail : FetchEnv :=
  ⟨false, .ok (.obj [("info", .obj [])]), false, fun _ => false, false, 7⟩
theorem validateDealAttributes_ok_iff (ds : List DealObj) :
    validateDealAttributes ds = Except.ok () ↔
      ∀ d ∈ ds, isDealValid d = true ∧ isNumerical (getField d "price") = true := by
  induction ds with
  | nil => simp [validateDealAttributes]
  | cons d ds ih =>
    by_cases h1 : isDealValid d = true
    · by_cases h2 : isNumerical (getField d "price") = true
      · simp [validateDealAttributes, h1, h2, ih]
      · rw [Bool.not_eq_true] at h2
        simp [validateDealAttributes, h1, h2]
    · rw [Bool.not_eq_true] at h1
      simp [validateDealAttributes, h1]

theorem validateDealAttributes_cases (ds : List DealObj)
    (hvalid : ∀ d ∈ ds, isDealValid d = true) :
    validateDealAttributes ds = Except.ok () ∨
      ∃ v, validateDealAttributes ds = Except.error (.nonNumericPrice v) ∧
        isNumerical v = false := by
  induction ds with
  | nil => left; simp [validateDealAttributes]
  | cons d ds ih =>
    have h1 : isDealValid d = true := hvalid d (List.mem_cons_self d ds)
    by_cases h2 : isNumerical (getField d "price") = true
    · have := ih (fun d hd => hvalid d (List.mem_cons_of_mem _ hd))
      simpa [validateDealAttributes, h1, h2] using this
    · rw [Bool.not_eq_true] at h2
      right
      exact ⟨getField d "price", by simp [validateDealAttributes, h1, h2], h2⟩

theorem hasUniqueAux_iff (ds : List DealObj) :
    ∀ seen : List Prim,
      hasUniqueAux seen ds = true ↔
        ((ds.map (fun d => getField d "storeID")).Nodup ∧
          ∀ d ∈ ds, getField d "storeID" ∉ seen) := by
  induction ds with
  | nil => intro seen; simp [hasUniqueAux]
  | cons d ds ih =>
    intro seen
    by_cases h : getField d "storeID" ∈ seen
    · simp only [hasUniqueAux, if_pos h]
      constructor
      · intro hfalse; exact absurd hfalse (by simp)
      · rintro ⟨-, hall⟩
        exact absurd h (hall d (List.mem_cons_self d ds))
    · simp only [hasUniqueAux, if_neg h]
      rw [ih]
      constructor
      · rintro ⟨hnd, hall⟩
        constructor
        · rw [List.map_cons, List.nodup_cons]
          refine ⟨?_, hnd⟩
          intro hmem
          rw [List.mem_map] at hmem
          obtain ⟨a, ha, haeq⟩ := hmem
          have hne := hall a ha
          rw [haeq] at hne
          exact hne (List.mem_cons_self _ _)
        · intro a ha hseen
          rcases List.mem_cons.mp ha with rfl | ha2
          · exact h hseen
          · exact (hall a ha2) (List.mem_cons_of_mem _ hseen)
      · rintro ⟨hnd, hall⟩
        rw [List.map_cons, List.nodup_cons] at hnd
        refine ⟨hnd.2, ?_⟩
        intro a ha hmem
        rcases List.mem_cons.mp hmem with heq | hseen
        · exact hnd.1 (heq ▸ List.mem_map_of_mem _ ha)
        · exact (hall a (List.mem_cons_of_mem _ ha)) hseen

theorem hasUniqueStoreIDs_iff (ds : List DealObj) :
    hasUniqueStoreIDs ds = true ↔ (ds.map (fun d => getField d "storeID")).Nodup := by
  simpa [hasUniqueStoreIDs] using hasUniqueAux_iff ds []

theorem falsyOr (p : Prim) :
    (!(truthy p) || p == Prim.val .null || p == Prim.val (.str "")) = !(truthy p) := by
  rw [Bool.eq_iff_iff]
  rcases p with _ | v
  · simp [truthy]
  · rcases v with _ | b | s | q <;> simp [truthy, truthyJP]

theorem dealsFalsyOr (v : DealsVal) :
    (!(truthyDeals v) || v == DealsVal.prim (.val .null) ||
      v == DealsVal.prim (.val (.str ""))) = !(truthyDeals v) := by
  rw [Bool.eq_iff_iff]
  rcases v with p | ds
  · rcases p with _ | w
    · simp [truthyDeals, truthy]
    · rcases w with _ | b | s | q <;> simp [truthyDeals, truthy, truthyJP]
  · simp [truthyDeals]

theorem isAttributeInvalid_title (g : GamePayload) :
    isAttributeInvalid g "title" = !(truthy g.title) := by
  simpa [isAttributeInvalid] using falsyOr g.title

theorem isAttributeInvalid_cheapestPrice (g : GamePayload) :
    isAttributeInvalid g "cheapestPrice" = !(truthy g.cheapestPrice) := by
  simpa [isAttributeInvalid] using falsyOr g.cheapestPrice

theorem isAttributeInvalid_deals (g : GamePayload) :
    isAttributeInvalid g "deals" = !(truthyDeals g.deals) := by
  simpa [isAttributeInvalid] using dealsFalsyOr g.deals

theorem validateGameAttributes_ok_iff (g : GamePayload) :
    validateGameAttributes g = Except.ok () ↔
      isNumerical g.cheapestPrice = true ∧
        requiredAttributes.filter (fun a => isAttributeInvalid g a) = [] := by
  unfold validateGameAttributes validateCheapestPrice
  by_cases h : isNumerical g.cheapestPrice = true
  · simp only [h, Bool.not_true, Bool.false_eq_true, if_false, true_and]
    by_cases h2 : requiredAttributes.filter (fun a => isAttributeInvalid g a) = []
    · simp [h2]
    · have : (requiredAttributes.filter (fun a => isAttributeInvalid g a)).length > 0 :=
        List.length_pos.mpr h2
      simp [this, h2]
  · rw [Bool.not_eq_true] at h
    simp [h]

theorem validateGameAttributes_nonNumeric (g : GamePayload)
    (h : isNumerical g.cheapestPrice = false) :
    validateGameAttributes g = Except.error (.nonNumericCheapestPrice g.cheapestPrice) := by
  unfold validateGameAttributes validateCheapestPrice
  simp [h]

theorem validateGameAttributes_missing (g : GamePayload)
    (h : isNumerical g.cheapestPrice = true)
    (h2 : requiredAttributes.filter (fun a => isAttributeInvalid g a) ≠ []) :
    validateGameAttributes g = Except.error
      (.missingRequiredAttributes
        (requiredAttributes.filter (fun a => isAttributeInvalid g a))) := by
  unfold validateGameAttributes validateCheapestPrice
  have hl : (requiredAttributes.filter (fun a => isAttributeInvalid g a)).length > 0 :=
    List.length_pos.mpr h2
  simp [h, hl]

theorem truthy_title_of_ok (g : GamePayload)
    (h : validateGameAttributes g = Except.ok ()) : truthy g.title = true := by
  rw [validateGameAttributes_ok_iff] at h
  have h3 := List.filter_eq_nil_iff.mp h.2 "title" (by simp [requiredAttributes])
  rw [isAttributeInvalid_title] at h3
  simpa using h3

theorem stringifyEqDeals_iff (stored : List DealObj) (v : DealsVal) :
    stringifyEqDeals stored v = true ↔ v = .arr stored := by
  rcases v with p | ds
  · simp [stringifyEqDeals]
  · simp only [stringifyEqDeals, beq_iff_eq, DealsVal.arr.injEq]
    exact eq_comm

theorem checkIfSameGame_iff (doc : GameDoc) (p : GamePayload) :
    checkIfSameGame doc p = true ↔
      (p.gameID = .val doc.gameID ∧ p.title = .val doc.title ∧ p.thumb = .val doc.thumb ∧
        p.cheapestPrice = .val doc.cheapestPrice ∧ p.deals = .arr doc.deals) := by
  unfold checkIfSameGame
  simp only [Bool.and_eq_true, beq_iff_eq, stringifyEqDeals_iff]
  constructor
  · rintro ⟨⟨⟨⟨h1, h2⟩, h3⟩, h4⟩, h5⟩
    exact ⟨h1.symm, h2.symm, h3.symm, h4.symm, h5⟩
  · rintro ⟨h1, h2, h3, h4, h5⟩
    exact ⟨⟨⟨⟨h1.symm, h2.symm⟩, h3.symm⟩, h4.symm⟩, h5⟩

theorem checkIfSameGame_refl (doc : GameDoc) :
    checkIfSameGame doc (toPayload doc) = true := by
  rw [checkIfSameGame_iff]
  exact ⟨rfl, rfl, rfl, rfl, rfl⟩

theorem replaceFirst_find? (db : List GameDoc) (key : Nat) (p : GamePayload) (doc : GameDoc)
    (h : db.find? (fun d => d.id == key) = some doc) :
    (replaceFirst db key p).find? (fun d => d.id == key) = some (applySet doc p) := by
  induction db with
  | nil => simp at h
  | cons d rest ih =>
    cases hd : (d.id == key) with
    | true =>
      simp only [List.find?, hd] at h
      have hdoc : d = doc := by injection h
      subst hdoc
      simp only [replaceFirst, if_pos hd]
      have hid : ((applySet d p).id == key) = true := by simpa [applySet] using hd
      simp only [List.find?, hid]
    | false =>
      simp only [List.find?, hd] at h
      simp only [replaceFirst, if_neg (by simp [hd] : ¬((d.id == key) = true))]
      simp only [List.find?, hd]
      exact ih h

/-- C1: for every non-empty deal list in which every entry has a storeID
different from null and from the empty string and a price different from
null and from the empty string that passes the numeric check, and whose
storeID values are pairwise distinct, validateDeals succeeds and returns
the sequence of the same length and order whose i-th element is exactly
the {storeID, price} normalization of the i-th input entry, every other
field dropped. -/
theorem c1_validateDeals_normalizes (ds : List DealObj)
    (hne : ds ≠ [])
    (hfields : ∀ d ∈ ds,
      getField d "storeID" ≠ Prim.val .null ∧ getField d "storeID" ≠ Prim.val (.str "") ∧
      getField d "price" ≠ Prim.val .null ∧ getField d "price" ≠ Prim.val (.str "") ∧
      isNumerical (getField d "price") = true)
    (hnodup : (ds.map (fun d => getField d "storeID")).Nodup) :
    validateDeals (.arr ds) = Except.ok (ds.map normalizeDeal) := by
  have hvalid : ∀ d ∈ ds, isDealValid d = true := by
    intro d hd
    obtain ⟨h1, h2, h3, h4, -⟩ := hfields d hd
    simp [isDealValid, h1, h2, h3, h4]
  have hvda : validateDealAttributes ds = Except.ok () := by
    rw [validateDealAttributes_ok_iff]
    intro d hd
    exact ⟨hvalid d hd, (hfields d hd).2.2.2.2⟩
  have hlen : ¬(ds.length = 0) := by simpa [List.length_eq_zero] using hne
  have huniq : hasUniqueStoreIDs ds = true := (hasUniqueStoreIDs_iff ds).mpr hnodup
  simp [validateDeals, hlen, hvda, huniq]

/-- Witness for C1 at the specification's example input
[{storeID: "1", price: "9.99"}, {storeID: "2", price: "4.99"}]. -/
theorem c1_validateDeals_normalizes_witness :
    validateDeals (.arr [dealOne, dealTwo]) =
      Except.ok [⟨.val (.str "1"), .val (.str "9.99")⟩, ⟨.val (.str "2"), .val (.str "4.99")⟩] := by
  rw [c1_validateDeals_normalizes [dealOne, dealTwo] (by decide) (by decide) (by decide)]
  decide

/-- C6 counterexample: the two entries share storeID "1", yet because
validateDealAttributes runs before the uniqueness scan and the first
entry's price "abc" is not numeric, validateDeals fails with the
NonNumericPrice error, not with DuplicateStoreID as the claim states. -/
theorem c6_counterexample :
    getField dealBadPrice "storeID" = getField dealDupOne "storeID" ∧
    validateDeals (.arr [dealBadPrice, dealDupOne]) =
      Except.error (.nonNumericPrice (.val (.str "abc"))) ∧
    validateDeals (.arr [dealBadPrice, dealDupOne]) ≠ Except.error .duplicateStoreID :=
  ⟨by decide, by decide, by decide⟩

/-- C6 amended: for every deal list whose entries all pass the per-deal
attribute checks (valid storeID and price, numeric price), a repeated
storeID value makes validateDeals fail with DuplicateStoreID, the
uniqueness scan having reported the repeat. -/
theorem c6_duplicateStoreID (ds : List DealObj)
    (hok : ∀ d ∈ ds, isDealValid d = true ∧ isNumerical (getField d "price") = true)
    (hdup : ¬ (ds.map (fun d => getField d "storeID")).Nodup) :
    validateDeals (.arr ds) = Except.error .duplicateStoreID ∧
      hasUniqueStoreIDs ds = false := by
  have hvda : validateDealAttributes ds = Except.ok () :=
    (validateDealAttributes_ok_iff ds).mpr hok
  have hu : hasUniqueStoreIDs ds = false := by
    cases h : hasUniqueStoreIDs ds
    · rfl
    · exact absurd ((hasUniqueStoreIDs_iff ds).mp h) hdup
  have hne : ¬(ds.length = 0) := by
    intro h0
    rw [List.length_eq_zero] at h0
    subst h0
    exact hdup (by simp)
  exact ⟨by simp [validateDeals, hne, hvda, hu], hu⟩

/-- Witness for the amended C6 at the specification's duplicate example
[{storeID: "1", price: "9.99"}, {storeID: "1", price: "3.99"}]. -/
theorem c6_duplicateStoreID_witness :
    validateDeals (.arr [dealOne, dealDupOne]) = Except.error .duplicateStoreID ∧
      hasUniqueStoreIDs [dealOne, dealDupOne] = false :=
  c6_duplicateStoreID [dealOne, dealDupOne] (by decide) (by decide)

/-- C7: over deal lists whose entries all pass the isDealValid check,
validateDeals fails with a NonNumericPrice error exactly when some entry's
price fails the numeric check; and the numeric check accepts the numeric
string "9.99" while rejecting "Infinity" and "NaN". -/
theorem c7_nonNumericPrice_iff :
    (∀ ds : List DealObj, (∀ d ∈ ds, isDealValid d = true) →
      ((∃ v, validateDeals (.arr ds) = Except.error (.nonNumericPrice v)) ↔
        ∃ d ∈ ds, isNumerical (getField d "price") = false)) ∧
    isNumerical (.val (.str "9.99")) = true ∧
    isNumerical (.val (.str "Infinity")) = false ∧
    isNumerical (.val (.str "NaN")) = false := by
  refine ⟨?_, by decide, by decide, by decide⟩
  intro ds hvalid
  constructor
  · rintro ⟨v, hv⟩
    by_contra hno
    push_neg at hno
    have hok : validateDealAttributes ds = Except.ok () := by
      rw [validateDealAttributes_ok_iff]
      intro d hd
      refine ⟨hvalid d hd, ?_⟩
      have := hno d hd
      cases h : isNumerical (getField d "price")
      · exact absurd h this
      · rfl
    by_cases hlen : ds.length = 0
    · simp only [validateDeals, if_pos hlen] at hv
      simp at hv
    · simp only [validateDeals, if_neg hlen, hok] at hv
      by_cases hu : hasUniqueStoreIDs ds = true
      · rw [if_pos hu] at hv
        simp at hv
      · rw [if_neg hu] at hv
        simp at hv
  · rintro ⟨d, hd, hnum⟩
    have hne : ¬(ds.length = 0) := by
      intro h0
      rw [List.length_eq_zero] at h0
      subst h0
      cases hd
    have hnok : validateDealAttributes ds ≠ Except.ok () := by
      intro hall
      rw [validateDealAttributes_ok_iff] at hall
      have := (hall d hd).2
      rw [hnum] at this
      cases this
    rcases validateDealAttributes_cases ds hvalid with hok | ⟨v, hv, -⟩
    · exact absurd hok hnok
    · exact ⟨v, by simp [validateDeals, hne, hv]⟩

/-- Witness for C7: a singleton list with price "Infinity" fails with
NonNumericPrice, by the equivalence instantiated at that list. -/
theorem c7_nonNumericPrice_iff_witness :
    ∃ v, validateDeals (.arr [[("storeID", .str "1"), ("price", .str "Infinity")]]) =
      Except.error (.nonNumericPrice v) :=
  (c7_nonNumericPrice_iff.1 [[("storeID", .str "1"), ("price", .str "Infinity")]]
    (by decide)).mpr ⟨[("storeID", .str "1"), ("price", .str "Infinity")], by decide, by decide⟩

/-- C2 counterexample: with title "Halo" and a valid deals list, a null
cheapestPrice is one of the claim's missing placeholders, yet
validateGameAttributes fails with NonNumericCheapestPrice, not with
MissingRequiredAttributes naming cheapestPrice; and with a numeric
cheapestPrice and an empty deals list, also missing by the claim's
reading, the validator does not fail at all, an empty array being truthy. -/
theorem c2_counterexample :
    validateGameAttributes payloadNullPrice =
      Except.error (.nonNumericCheapestPrice (.val .null)) ∧
    validateGameAttributes payloadNullPrice ≠
      Except.error (.missingRequiredAttributes ["cheapestPrice"]) ∧
    validateGameAttributes payloadEmptyDeals = Except.ok () :=
  ⟨by decide, by decide, by decide⟩

/-- C2 amended: validateGameAttributes checks cheapestPrice's numeric
validity before reporting missing attributes, so when cheapestPrice is not
numeric (in particular absent, null or an empty string) the failure is
NonNumericCheapestPrice; when cheapestPrice is numeric (for example the
falsy but numeric 0) and some required attribute is falsy, the failure is
MissingRequiredAttributes naming exactly the falsy attributes; an
attribute counts as missing exactly when its value is falsy, so an empty
deals array does not count. -/
theorem c2_missing_attributes (g : GamePayload) :
    (isNumerical g.cheapestPrice = false →
      validateGameAttributes g = Except.error (.nonNumericCheapestPrice g.cheapestPrice)) ∧
    (isNumerical g.cheapestPrice = true →
      requiredAttributes.filter (fun a => isAttributeInvalid g a) ≠ [] →
      validateGameAttributes g = Except.error
        (.missingRequiredAttributes
          (requiredAttributes.filter (fun a => isAttributeInvalid g a)))) ∧
    isAttributeInvalid g "title" = !(truthy g.title) ∧
    isAttributeInvalid g "cheapestPrice" = !(truthy g.cheapestPrice) ∧
    isAttributeInvalid g "deals" = !(truthyDeals g.deals) :=
  ⟨validateGameAttributes_nonNumeric g, validateGameAttributes_missing g,
    isAttributeInvalid_title g, isAttributeInvalid_cheapestPrice g, isAttributeInvalid_deals g⟩

/-- Witness for the amended C2: a payload with an empty title and numeric
cheapestPrice fails with MissingRequiredAttributes naming exactly title. -/
theorem c2_missing_attributes_witness :
    validateGameAttributes payloadNoTitle = Except.error
      (.missingRequiredAttributes
        (requiredAttributes.filter (fun a => isAttributeInvalid payloadNoTitle a))) ∧
    requiredAttributes.filter (fun a => isAttributeInvalid payloadNoTitle a) = ["title"] :=
  ⟨(c2_missing_attributes payloadNoTitle).2.1 (by decide) (by decide), by decide⟩

theorem dealShape (d : DealObj) (h : d.map Prod.fst = ["storeID", "price"]) :
    ∃ a b, d = [("storeID", a), ("price", b)] := by
  rcases d with _ | ⟨⟨k1, v1⟩, d2⟩
  · simp at h
  rcases d2 with _ | ⟨⟨k2, v2⟩, d3⟩
  · simp at h
  rcases d3 with _ | ⟨p, d4⟩
  · obtain ⟨h1, h2⟩ : k1 = "storeID" ∧ k2 = "price" := by simpa using h
    subst h1
    subst h2
    exact ⟨v1, v2, rfl⟩
  · simp at h

theorem normalizeDeal_pair (a b : JPrim) :
    normalizeDeal [("storeID", a), ("price", b)] = ⟨.val a, .val b⟩ := rfl

theorem normalizeDeal_inj (d d2 : DealObj)
    (h : d.map Prod.fst = ["storeID", "price"])
    (h2 : d2.map Prod.fst = ["storeID", "price"])
    (he : normalizeDeal d = normalizeDeal d2) : d = d2 := by
  obtain ⟨a, b, rfl⟩ := dealShape d h
  obtain ⟨a2, b2, rfl⟩ := dealShape d2 h2
  rw [normalizeDeal_pair, normalizeDeal_pair] at he
  obtain ⟨ha, hb⟩ : Prim.val a = Prim.val a2 ∧ Prim.val b = Prim.val b2 := by
    simpa [NormDeal.mk.injEq] using he
  simp only [Prim.val.injEq] at ha hb
  rw [ha, hb]

theorem mapNormalizeDeal_inj (e : List DealObj) :
    ∀ n : List DealObj,
      (∀ d ∈ e, d.map Prod.fst = ["storeID", "price"]) →
      (∀ d ∈ n, d.map Prod.fst = ["storeID", "price"]) →
      ((e.map normalizeDeal = n.map normalizeDeal) ↔ e = n) := by
  induction e with
  | nil =>
    intro n he hn
    cases n with
    | nil => simp
    | cons d n2 => simp
  | cons d e2 ih =>
    intro n he hn
    cases n with
    | nil => simp
    | cons d2 n2 =>
      simp only [List.map_cons, List.cons.injEq]
      constructor
      · rintro ⟨h1, h2⟩
        refine ⟨normalizeDeal_inj d d2 (he d (List.mem_cons_self _ _))
          (hn d2 (List.mem_cons_self _ _)) h1, ?_⟩
        exact (ih n2 (fun x hx => he x (List.mem_cons_of_mem _ hx))
          (fun x hx => hn x (List.mem_cons_of_mem _ hx))).mp h2
      · rintro ⟨h1, h2⟩
        exact ⟨by rw [h1], by rw [h2]⟩

/-- C3 amended: checkIfSameGame returns true exactly when the four scalar
fields are identical by strict equality and the deals arrays are equal as
full JSON documents (order of entries, fields and field order all
included); it is reflexive on an identical copy in the same deal order;
reordering the deals yields false; a numeric cheapestPrice is never equal
to its string form; and on deal entries carrying exactly the keys storeID
and price, in that order, equality of the normalized {storeID, price}
sequences coincides with equality of the full arrays, which recovers the
claim's reading for extra-field-free deals. -/
theorem c3_checkIfSameGame_characterization :
    (∀ (doc : GameDoc) (p : GamePayload),
      checkIfSameGame doc p = true ↔
        (p.gameID = .val doc.gameID ∧ p.title = .val doc.title ∧
          p.thumb = .val doc.thumb ∧ p.cheapestPrice = .val doc.cheapestPrice ∧
          p.deals = .arr doc.deals)) ∧
    (∀ doc : GameDoc, checkIfSameGame doc (toPayload doc) = true) ∧
    (∀ e n : List DealObj,
      (∀ d ∈ e, d.map Prod.fst = ["storeID", "price"]) →
      (∀ d ∈ n, d.map Prod.fst = ["storeID", "price"]) →
      ((e.map normalizeDeal = n.map normalizeDeal) ↔ e = n)) ∧
    checkIfSameGame docTwoDeals payloadReordered = false ∧
    checkIfSameGame docNumPrice payloadStrPrice = false :=
  ⟨checkIfSameGame_iff, checkIfSameGame_refl, mapNormalizeDeal_inj, by decide, by decide⟩

/-- Witness for the amended C3: the coincidence part instantiated at two
concrete extra-field-free deal lists. -/
theorem c3_checkIfSameGame_characterization_witness :
    ([dealOne].map normalizeDeal = [dealTwo].map normalizeDeal) ↔ [dealOne] = [dealTwo] :=
  c3_checkIfSameGame_characterization.2.2.1 [dealOne] [dealTwo] (by decide) (by decide)

/-- C3 counterexample: docExtra's single deal carries the extra field
isOnSale; payloadExtra agrees with it on all four scalar fields and its
deals equal the stored ones as ordered {storeID, price} sequences, yet
checkIfSameGame returns false, because JSON.stringify compares whole deal
objects and the extra field survives in the stored record. -/
theorem c3_counterexample :
    Prim.val docExtra.gameID = payloadExtra.gameID ∧
    Prim.val docExtra.title = payloadExtra.title ∧
    Prim.val docExtra.thumb = payloadExtra.thumb ∧
    Prim.val docExtra.cheapestPrice = payloadExtra.cheapestPrice ∧
    docExtra.deals.map normalizeDeal = (getArr payloadExtra.deals).map normalizeDeal ∧
    checkIfSameGame docExtra payloadExtra = false :=
  ⟨rfl, rfl, rfl, rfl, by decide, by decide⟩

theorem conflictGameID_iff (doc : GameDoc) (p : GamePayload) :
    ((doc.gameID != JPrim.null && doc.gameID == toBson p.gameID) = true) ↔
      (doc.gameID ≠ JPrim.null ∧ Prim.val doc.gameID = p.gameID) := by
  cases hg : p.gameID with
  | undefined =>
    simp only [toBson, Bool.and_eq_true, bne_iff_ne, beq_iff_eq]
    constructor
    · rintro ⟨hne, heq⟩
      exact absurd heq hne
    · rintro ⟨hne, heq⟩
      exact absurd heq (by simp)
  | val v =>
    simp [toBson, Bool.and_eq_true, bne_iff_ne, beq_iff_eq, Prim.val.injEq]

theorem conflictTitle_iff (doc : GameDoc) (w : JPrim) :
    ((doc.title == toBson (.val w)) = true) ↔ Prim.val doc.title = Prim.val w := by
  simp [toBson]

theorem conflictWith_iff (doc : GameDoc) (p : GamePayload) (htitle : truthy p.title = true) :
    conflictWith doc p = true ↔
      ((doc.gameID ≠ JPrim.null ∧ Prim.val doc.gameID = p.gameID) ∨
        Prim.val doc.title = p.title) := by
  obtain ⟨w, hw⟩ : ∃ w, p.title = Prim.val w := by
    cases ht : p.title
    · rw [ht] at htitle; cases htitle
    · exact ⟨_, rfl⟩
  unfold conflictWith
  rw [hw, Bool.or_eq_true, conflictGameID_iff, conflictTitle_iff]

/-- C4: once both validators have passed, the create route fails with
DuplicateGame exactly when some stored record has a non-null gameID equal
to the inbound gameID or a title equal to the inbound title; nothing is
inserted in the failing case; and creating a second game whose title
equals a just-created game's title fails with DuplicateGame whatever the
two gameID values are, both-null included. -/
theorem c4_duplicate_create
    (db : List GameDoc) (nid nid2 : Nat) (p q : GamePayload)
    (hvp : validateGameAttributes p = Except.ok ())
    (hdp : validateDeals p.deals = Except.ok ((getArr p.deals).map normalizeDeal))
    (hvq : validateGameAttributes q = Except.ok ())
    (hdq : validateDeals q.deals = Except.ok ((getArr q.deals).map normalizeDeal)) :
    ((postGames db nid p).1 = Except.error .duplicateGame ↔
      ∃ doc ∈ db, (doc.gameID ≠ JPrim.null ∧ Prim.val doc.gameID = p.gameID) ∨
        Prim.val doc.title = p.title) ∧
    ((postGames db nid p).1 = Except.error .duplicateGame → (postGames db nid p).2 = db) ∧
    (q.title = p.title → (postGames db nid p).1 = Except.ok nid →
      (postGames (postGames db nid p).2 nid2 q).1 = Except.error .duplicateGame ∧
        (postGames (postGames db nid p).2 nid2 q).2 = (postGames db nid p).2) := by
  have htp : truthy p.title = true := truthy_title_of_ok p hvp
  by_cases hc : db.any (fun doc => conflictWith doc p) = true
  · have hres : (postGames db nid p).1 = Except.error .duplicateGame := by
      simp [postGames, hvp, hdp, hc]
    have hdb : (postGames db nid p).2 = db := by
      simp [postGames, hvp, hdp, hc]
    refine ⟨⟨fun _ => ?_, fun _ => hres⟩, fun _ => hdb, fun _ hok => ?_⟩
    · obtain ⟨doc, hdoc, hcw⟩ := List.any_eq_true.mp hc
      exact ⟨doc, hdoc, (conflictWith_iff doc p htp).mp hcw⟩
    · rw [hres] at hok
      exact absurd hok (by simp)
  · have hcf : db.any (fun doc => conflictWith doc p) = false := by
      cases h : db.any (fun doc => conflictWith doc p)
      · rfl
      · exact absurd h hc
    have hres : (postGames db nid p).1 = Except.ok nid := by
      simp [postGames, hvp, hdp, hcf]
    have hdb : (postGames db nid p).2 = db ++ [mkDoc nid p] := by
      simp [postGames, hvp, hdp, hcf]
    refine ⟨⟨fun h => ?_, fun hex => ?_⟩, fun h => ?_, fun htitle _ => ?_⟩
    · rw [hres] at h
      exact absurd h (by simp)
    · exfalso
      obtain ⟨doc, hdoc, hcw⟩ := hex
      exact hc (List.any_eq_true.mpr ⟨doc, hdoc, (conflictWith_iff doc p htp).mpr hcw⟩)
    · rw [hres] at h
      exact absurd h (by simp)
    · have htq : truthy q.title = true := truthy_title_of_ok q hvq
      have hcq : ((db ++ [mkDoc nid p]).any (fun doc => conflictWith doc q)) = true := by
        apply List.any_eq_true.mpr
        refine ⟨mkDoc nid p, by simp, ?_⟩
        apply (conflictWith_iff (mkDoc nid p) q htq).mpr
        right
        rw [htitle]
        show Prim.val (toBson p.title) = p.title
        obtain ⟨w, hw⟩ : ∃ w, p.title = Prim.val w := by
          cases ht : p.title
          · rw [ht] at htp; cases htp
          · exact ⟨_, rfl⟩
        rw [hw]
        rfl
      rw [hdb]
      constructor
      · simp [postGames, hvq, hdq, hcq]
      · simp [postGames, hvq, hdq, hcq]

/-- Witness for C4: creating Halo with a null gameID and then creating a
second payload with the same title and a null gameID fails the second
create with DuplicateGame and leaves the store unchanged. -/
theorem c4_duplicate_create_witness :
    (postGames (postGames [] 1 payloadHalo).2 2 payloadHaloAgain).1 =
      Except.error .duplicateGame ∧
    (postGames (postGames [] 1 payloadHalo).2 2 payloadHaloAgain).2 =
      (postGames [] 1 payloadHalo).2 :=
  (c4_duplicate_create [] 1 2 payloadHalo payloadHaloAgain (by decide) (by decide)
      (by decide) (by decide)).2.2 (by decide) (by decide)

/-- C9: when both validators pass and no duplicate is found, the record
the create route inserts carries the deals array exactly as submitted in
the request body: the normalized sequence validateDeals returned is
discarded, so extra fields on submitted deal entries are persisted
verbatim. -/
theorem c9_raw_deals_inserted (db : List GameDoc) (nid : Nat) (p : GamePayload)
    (hv : validateGameAttributes p = Except.ok ())
    (hd : validateDeals p.deals = Except.ok ((getArr p.deals).map normalizeDeal))
    (hc : db.any (fun doc => conflictWith doc p) = false) :
    postGames db nid p = (Except.ok nid, db ++ [mkDoc nid p]) ∧
      (mkDoc nid p).deals = getArr p.deals := by
  constructor
  · simp [postGames, hv, hd, hc]
  · rfl

/-- Witness for C9: a payload whose deal entry carries the extra field
isOnSale is stored verbatim, extra field included, although the
normalized sequence would have dropped it. -/
theorem c9_raw_deals_inserted_witness :
    postGames [] 1 payloadWithExtra = (Except.ok 1, [mkDoc 1 payloadWithExtra]) ∧
    (mkDoc 1 payloadWithExtra).deals = [dealExtra] ∧
    [dealExtra].map normalizeDeal = [dealOne].map normalizeDeal ∧ dealExtra ≠ dealOne :=
  ⟨(c9_raw_deals_inserted [] 1 payloadWithExtra (by decide) (by decide) (by decide)).1,
    by decide, by decide, by decide⟩

/-- C5 amended: on the update path with both validators passing and a
stored record found under the key, a payload carrying exactly the stored
values fails with NoChange and leaves the collection untouched, the
equality check running before any write; and a payload the equality check
distinguishes from the stored record whose $set result also differs from
the stored record succeeds and replaces the record's five fields.  (A
payload differing only in ways BSON serialization erases, undefined
against null, instead fails after the write with the "not found or no
changes" report; see the counterexample.) -/
theorem c5_update_noChange (db : List GameDoc) (key : Nat) (p : GamePayload) (doc : GameDoc)
    (hv : validateGameAttributes p = Except.ok ())
    (hd : validateDeals p.deals = Except.ok ((getArr p.deals).map normalizeDeal))
    (hfind : db.find? (fun d => d.id == key) = some doc) :
    (p = toPayload doc → putGames db key p = (Except.error .noChange, db)) ∧
    (checkIfSameGame doc p = false → applySet doc p ≠ doc →
      putGames db key p = (Except.ok (), replaceFirst db key p) ∧
        (replaceFirst db key p).find? (fun d => d.id == key) = some (applySet doc p)) := by
  constructor
  · rintro rfl
    have hsame : checkIfSameGame doc (toPayload doc) = true := checkIfSameGame_refl doc
    simp [putGames, hv, hd, hfind, hsame]
  · intro hdiff hset
    have hbeq : (applySet doc p == doc) = false := by
      cases h : applySet doc p == doc
      · rfl
      · exact absurd (eq_of_beq h) hset
    exact ⟨by simp [putGames, hv, hd, hfind, hdiff, hbeq],
      replaceFirst_find? db key p doc hfind⟩

/-- Witness for the amended C5: updating the stored record with an
identical copy fails with NoChange; updating it with the same payload
altered only in its thumb succeeds and rewrites the record. -/
theorem c5_update_noChange_witness :
    putGames [docNullGameID] 1 (toPayload docNullGameID) =
      (Except.error .noChange, [docNullGameID]) ∧
    putGames [docNullGameID] 1 payloadNewThumb =
      (Except.ok (), replaceFirst [docNullGameID] 1 payloadNewThumb) :=
  ⟨(c5_update_noChange [docNullGameID] 1 (toPayload docNullGameID) docNullGameID
      (by decide) (by decide) (by decide)).1 rfl,
    ((c5_update_noChange [docNullGameID] 1 payloadNewThumb docNullGameID
      (by decide) (by decide) (by decide)).2 (by decide) (by decide)).1⟩

/-- C5 counterexample: payloadUndefGameID passes both validators, agrees
with the stored docNullGameID on title, thumb, cheapestPrice and deals,
and differs in exactly one field, its gameID being undefined where the
stored one is null; the claim promises success, yet the update fails with
the "Game not found or no changes made." error and the collection is
unchanged, because strict equality distinguishes undefined from null
while the BSON $set erases the difference, leaving modifiedCount at 0. -/
theorem c5_counterexample :
    validateGameAttributes payloadUndefGameID = Except.ok () ∧
    payloadUndefGameID.title = .val docNullGameID.title ∧
    payloadUndefGameID.thumb = .val docNullGameID.thumb ∧
    payloadUndefGameID.cheapestPrice = .val docNullGameID.cheapestPrice ∧
    payloadUndefGameID.deals = .arr docNullGameID.deals ∧
    payloadUndefGameID.gameID ≠ .val docNullGameID.gameID ∧
    putGames [docNullGameID] 1 payloadUndefGameID =
      (Except.error .notFoundOrNoChange, [docNullGameID]) :=
  ⟨by decide, by decide, by decide, by decide, by decide, by decide, by decide⟩

theorem catchAll_ok (b : Except Unit FetchResult) : ∃ r, catchAll b = Except.ok r := by
  cases b with
  | error e => exact ⟨.fetchStoreFailed, rfl⟩
  | ok r => exact ⟨r, rfl⟩

/-- C8 amended: the manual fetch-and-store operation propagates an
exception to the route exactly when the store connection itself fails,
connectDB being awaited before the try block and the route installing no
handler; once the connection is obtained, every failure inside the
operation (rejected request, empty or malformed payload, findOne or
insertOne rejection) is caught and returned as a result object with an
error or message field. -/
theorem c8_fetch_propagation :
    ∀ env : FetchEnv,
      (env.connectOk = true → ∃ r, postFetchStore env = Except.ok r) ∧
      (env.connectOk = false → postFetchStore env = Except.error ()) := by
  intro env
  constructor
  · intro h
    unfold postFetchStore fetchAndStoreGame
    rw [if_pos h]
    exact catchAll_ok (fetchBody env)
  · intro h
    unfold postFetchStore fetchAndStoreGame
    rw [if_neg (by simp [h])]

/-- Witness for the amended C8 at the concrete failing environment. -/
theorem c8_fetch_propagation_witness :
    postFetchStore envConnectFail = Except.error () :=
  (c8_fetch_propagation envConnectFail).2 rfl

/-- C8 counterexample: with a healthy network response held ready, a
store-connection failure makes the manual fetch-and-store path reject,
and the route, having no handler, propagates the exception instead of
answering with a result value, contradicting the claim that a store
failure is always returned as an ordinary result. -/
theorem c8_counterexample :
    envConnectFail.api = Except.ok (.obj [("info", .obj [])]) ∧
    fetchAndStoreGame envConnectFail = Except.error () ∧
    postFetchStore envConnectFail = Except.error () :=
  ⟨rfl, rfl, rfl⟩

/-- C10: deleting all records from the empty collection succeeds with
status 200 and a reported deleted count of 0, and on any collection the
bulk delete succeeds with the count of stored records, never failing
merely because zero records matched. -/
theorem c10_deleteAll_empty :
    deleteAllGames true [] = ((200, some 0), []) ∧
    ∀ db : List GameDoc, (deleteAllGames true db).1 = (200, some db.length) :=
  ⟨rfl, fun _ => rfl⟩
